import Mathlib

/- Verification model of src/fetch-interceptor.ts (otel-nextjs).
   JavaScript values appearing in the capture pipeline are modelled by the
   inductive JsValue below; JavaScript exceptions are modelled by the
   Except monad carrying the exception's message; the platform primitives
   the file calls (JSON.parse, JSON.stringify, Buffer base64 decoding,
   TextDecoder/UTF-8 decoding, URLSearchParams, parseInt) are given
   executable Lean models faithful to their observable behaviour on the
   inputs this file can produce.  Floating-point division in the binary
   heuristic is modelled by exact rational division. -/

namespace FetchCapture

/-- Whether the first character list is a leading run of the second. -/
def leadsChars : List Char → List Char → Bool
  | [], _ => true
  | _ :: _, [] => false
  | p :: ps, c :: cs => p = c && leadsChars ps cs

/-- Whether the second character list occurs inside the first. -/
def containsChars : List Char → List Char → Bool
  | [], pat => pat.isEmpty
  | c :: cs, pat => leadsChars pat (c :: cs) || containsChars cs pat

/-- Model of JavaScript String.includes. -/
def containsStr (s pat : String) : Bool := containsChars s.data pat.data

/-- Splitting a character list at every occurrence of a separator
character, keeping empty fragments, as JavaScript String.split does for a
one-character separator. -/
def splitOnChar (sep : Char) : List Char → List (List Char)
  | [] => [[]]
  | a :: tl =>
    if a = sep then [] :: splitOnChar sep tl
    else match splitOnChar sep tl with
      | h :: t => (a :: h) :: t
      | [] => [[a]]

/-- String splitting on a one-character separator. -/
def splitOnStr (s : String) (sep : Char) : List String :=
  (splitOnChar sep s.data).map String.mk

/-- Model of lowercasing a string (ASCII range, all the source compares). -/
def toLowerStr (s : String) : String := String.mk (s.data.map Char.toLower)

/-- Model of assigning a key on a plain JavaScript object: an existing key
keeps its position and gets the new value, a fresh key is appended. -/
def recordSet (m : List (String × String)) (k v : String) : List (String × String) :=
  if m.any (fun p => p.1 = k) then
    m.map (fun p => if p.1 = k then (k, v) else p)
  else m ++ [(k, v)]

/-- Left brace character, kept out of string literals. -/
def lbrace : Char := Char.ofNat 123

/-- Right brace character, kept out of string literals. -/
def rbrace : Char := Char.ofNat 125

/-- Model of a JSON / JavaScript value as produced by the capture pipeline.
JavaScript numbers are modelled by exact rationals. -/
inductive JsValue where
  | vNull : JsValue
  | vBool (b : Bool) : JsValue
  | vNum (q : Rat) : JsValue
  | vStr (s : String) : JsValue
  | vArr (xs : List JsValue) : JsValue
  | vObj (fields : List (String × JsValue)) : JsValue

mutual

/-- Decidable equality of modelled JavaScript values. -/
def deqVal : (a b : JsValue) → Decidable (a = b)
  | .vNull, .vNull => isTrue rfl
  | .vBool x, .vBool y =>
    match decEq x y with
    | isTrue h => isTrue (by rw [h])
    | isFalse h => isFalse (by intro hh; injection hh; contradiction)
  | .vNum x, .vNum y =>
    match decEq x y with
    | isTrue h => isTrue (by rw [h])
    | isFalse h => isFalse (by intro hh; injection hh; contradiction)
  | .vStr x, .vStr y =>
    match decEq x y with
    | isTrue h => isTrue (by rw [h])
    | isFalse h => isFalse (by intro hh; injection hh; contradiction)
  | .vArr xs, .vArr ys =>
    match deqValList xs ys with
    | isTrue h => isTrue (by rw [h])
    | isFalse h => isFalse (by intro hh; injection hh; contradiction)
  | .vObj fs, .vObj gs =>
    match deqFieldList fs gs with
    | isTrue h => isTrue (by rw [h])
    | isFalse h => isFalse (by intro hh; injection hh; contradiction)
  | .vNull, .vBool _ => isFalse nofun
  | .vNull, .vNum _ => isFalse nofun
  | .vNull, .vStr _ => isFalse nofun
  | .vNull, .vArr _ => isFalse nofun
  | .vNull, .vObj _ => isFalse nofun
  | .vBool _, .vNull => isFalse nofun
  | .vBool _, .vNum _ => isFalse nofun
  | .vBool _, .vStr _ => isFalse nofun
  | .vBool _, .vArr _ => isFalse nofun
  | .vBool _, .vObj _ => isFalse nofun
  | .vNum _, .vNull => isFalse nofun
  | .vNum _, .vBool _ => isFalse nofun
  | .vNum _, .vStr _ => isFalse nofun
  | .vNum _, .vArr _ => isFalse nofun
  | .vNum _, .vObj _ => isFalse nofun
  | .vStr _, .vNull => isFalse nofun
  | .vStr _, .vBool _ => isFalse nofun
  | .vStr _, .vNum _ => isFalse nofun
  | .vStr _, .vArr _ => isFalse nofun
  | .vStr _, .vObj _ => isFalse nofun
  | .vArr _, .vNull => isFalse nofun
  | .vArr _, .vBool _ => isFalse nofun
  | .vArr _, .vNum _ => isFalse nofun
  | .vArr _, .vStr _ => isFalse nofun
  | .vArr _, .vObj _ => isFalse nofun
  | .vObj _, .vNull => isFalse nofun
  | .vObj _, .vBool _ => isFalse nofun
  | .vObj _, .vNum _ => isFalse nofun
  | .vObj _, .vStr _ => isFalse nofun
  | .vObj _, .vArr _ => isFalse nofun

/-- Decidable equality of lists of modelled values. -/
def deqValList : (a b : List JsValue) → Decidable (a = b)
  | [], [] => isTrue rfl
  | x :: xs, y :: ys =>
    match deqVal x y with
    | isTrue h1 =>
      match deqValList xs ys with
      | isTrue h2 => isTrue (by rw [h1, h2])
      | isFalse h2 => isFalse (by intro hh; injection hh; contradiction)
    | isFalse h1 => isFalse (by intro hh; injection hh; contradiction)
  | [], _ :: _ => isFalse nofun
  | _ :: _, [] => isFalse nofun

/-- Decidable equality of field lists of modelled objects. -/
def deqFieldList : (a b : List (String × JsValue)) → Decidable (a = b)
  | [], [] => isTrue rfl
  | (k, v) :: xs, (k2, v2) :: ys =>
    match decEq k k2 with
    | isTrue hk =>
      match deqVal v v2 with
      | isTrue hv =>
        match deqFieldList xs ys with
        | isTrue h2 => isTrue (by rw [hk, hv, h2])
        | isFalse h2 => isFalse (by intro hh; injection hh; contradiction)
      | isFalse hv =>
        isFalse (by intro hh; injection hh with hp hrest; rw [Prod.ext_iff] at hp; exact hv hp.2)
    | isFalse hk =>
      isFalse (by intro hh; injection hh with hp hrest; rw [Prod.ext_iff] at hp; exact hk hp.1)
  | [], _ :: _ => isFalse nofun
  | _ :: _, [] => isFalse nofun

end

instance : DecidableEq JsValue := deqVal

/-- JavaScript truthiness of a value. -/
def jsTruthy : JsValue → Bool
  | .vNull => false
  | .vBool b => b
  | .vNum q => q != 0
  | .vStr s => s != ""
  | .vArr _ => true
  | .vObj _ => true

/-- JSON whitespace skipping. -/
def skipWs : List Char → List Char
  | c :: cs => if c = ' ' ∨ c = '\t' ∨ c = '\n' ∨ c = '\r' then skipWs cs else c :: cs
  | [] => []

/-- Digit run and remainder. -/
def takeDigits (cs : List Char) : List Char × List Char :=
  (cs.takeWhile Char.isDigit, cs.dropWhile Char.isDigit)

/-- Decimal digits to a natural number. -/
def digitsToNat (ds : List Char) : Nat :=
  ds.foldl (fun n c => n * 10 + (c.toNat - 48)) 0

/-- Hex digit value, if any. -/
def hexVal (c : Char) : Option Nat :=
  if '0' ≤ c ∧ c ≤ '9' then some (c.toNat - 48)
  else if 'a' ≤ c ∧ c ≤ 'f' then some (c.toNat - 87)
  else if 'A' ≤ c ∧ c ≤ 'F' then some (c.toNat - 55)
  else none

/-- Code point to a character, with the Unicode replacement character for
values outside the valid range. -/
def charOfCp (n : Nat) : Char :=
  if n < 0xd800 ∨ (0xdfff < n ∧ n < 0x110000) then Char.ofNat n else Char.ofNat 0xFFFD

/-- JSON string literal body (after the opening quote): returns the decoded
characters and the input following the closing quote. -/
def parseStrChars (fuel : Nat) (cs : List Char) : Except String (List Char × List Char) :=
  match fuel, cs with
  | 0, _ => .error "Unexpected end of JSON input"
  | _, [] => .error "Unterminated string in JSON"
  | fuel + 1, c :: rest =>
    if c = '"' then .ok ([], rest)
    else if c = '\\' then
      match rest with
      | [] => .error "Unterminated string in JSON"
      | e :: rest2 =>
        if e = '"' ∨ e = '\\' ∨ e = '/' then
          (parseStrChars fuel rest2).map (fun p => (e :: p.1, p.2))
        else if e = 'n' then (parseStrChars fuel rest2).map (fun p => ('\n' :: p.1, p.2))
        else if e = 't' then (parseStrChars fuel rest2).map (fun p => ('\t' :: p.1, p.2))
        else if e = 'r' then (parseStrChars fuel rest2).map (fun p => ('\r' :: p.1, p.2))
        else if e = 'b' then (parseStrChars fuel rest2).map (fun p => (Char.ofNat 8 :: p.1, p.2))
        else if e = 'f' then (parseStrChars fuel rest2).map (fun p => (Char.ofNat 12 :: p.1, p.2))
        else if e = 'u' then
          match rest2 with
          | h1 :: h2 :: h3 :: h4 :: rest3 =>
            match hexVal h1, hexVal h2, hexVal h3, hexVal h4 with
            | some a, some b, some c3, some d =>
              (parseStrChars fuel rest3).map
                (fun p => (charOfCp (a * 4096 + b * 256 + c3 * 16 + d) :: p.1, p.2))
            | _, _, _, _ => .error "Bad Unicode escape in JSON"
          | _ => .error "Bad Unicode escape in JSON"
        else .error "Bad escape in JSON"
    else (parseStrChars fuel rest).map (fun p => (c :: p.1, p.2))

/-- JSON number starting at the given characters (first character is a digit
or a minus sign). -/
def parseNum (cs : List Char) : Except String (JsValue × List Char) :=
  let (neg, cs1) := match cs with
    | '-' :: rest => (true, rest)
    | _ => (false, cs)
  let (intDs, cs2) := takeDigits cs1
  if intDs = [] then .error "Bad number in JSON"
  else if intDs.length > 1 ∧ intDs.headD '0' = '0' then .error "Bad number in JSON"
  else
    let hasDot : Bool := match cs2 with
      | '.' :: _ => true
      | _ => false
    let (fracDs, cs3) := match cs2 with
      | '.' :: rest => takeDigits rest
      | _ => ([], cs2)
    if hasDot && fracDs.isEmpty then .error "Bad number in JSON"
    else
      let hasExp : Bool := match cs3 with
        | 'e' :: _ => true
        | 'E' :: _ => true
        | _ => false
      let (expSign, expDs, cs4) := match cs3 with
        | 'e' :: '+' :: rest => (1, (takeDigits rest).1, (takeDigits rest).2)
        | 'e' :: '-' :: rest => (-1, (takeDigits rest).1, (takeDigits rest).2)
        | 'e' :: rest => (1, (takeDigits rest).1, (takeDigits rest).2)
        | 'E' :: '+' :: rest => (1, (takeDigits rest).1, (takeDigits rest).2)
        | 'E' :: '-' :: rest => (-1, (takeDigits rest).1, (takeDigits rest).2)
        | 'E' :: rest => (1, (takeDigits rest).1, (takeDigits rest).2)
        | _ => ((1 : Int), ([] : List Char), cs3)
      if hasExp && expDs.isEmpty then .error "Bad number in JSON"
      else
        let mantissa : Nat := digitsToNat intDs * 10 ^ fracDs.length + digitsToNat fracDs
        let signed : Int := if neg then -(mantissa : Int) else (mantissa : Int)
        let num : Int := signed * (if expSign ≥ 0 then ((10 ^ digitsToNat expDs : Nat) : Int) else 1)
        let den : Nat := 10 ^ fracDs.length * (if expSign ≥ 0 then 1 else 10 ^ digitsToNat expDs)
        .ok (.vNum (mkRat num den), cs4)

mutual

/-- JSON value, recursive descent; a model of JSON.parse's grammar.  Fuel
decreases at every recursive call; every recursive call follows the
consumption of at least one input character, so fuel exceeding the input
length never runs out. -/
def parseVal (fuel : Nat) (cs : List Char) : Except String (JsValue × List Char) :=
  match fuel with
  | 0 => .error "Unexpected end of JSON input"
  | fuel + 1 =>
    match skipWs cs with
    | [] => .error "Unexpected end of JSON input"
    | c :: rest =>
      if c = lbrace then
        match skipWs rest with
        | [] => .error "Unexpected end of JSON input"
        | c2 :: rest2 =>
          if c2 = rbrace then .ok (.vObj [], rest2)
          else (parseFields fuel (c2 :: rest2)).map (fun p => (.vObj p.1, p.2))
      else if c = '[' then
        match skipWs rest with
        | [] => .error "Unexpected end of JSON input"
        | c2 :: rest2 =>
          if c2 = ']' then .ok (.vArr [], rest2)
          else (parseElems fuel (c2 :: rest2)).map (fun p => (.vArr p.1, p.2))
      else if c = '"' then
        (parseStrChars (rest.length + 1) rest).map (fun p => (.vStr (String.mk p.1), p.2))
      else if c = 't' then
        match rest with
        | 'r' :: 'u' :: 'e' :: rest2 => .ok (.vBool true, rest2)
        | _ => .error "Unexpected token in JSON"
      else if c = 'f' then
        match rest with
        | 'a' :: 'l' :: 's' :: 'e' :: rest2 => .ok (.vBool false, rest2)
        | _ => .error "Unexpected token in JSON"
      else if c = 'n' then
        match rest with
        | 'u' :: 'l' :: 'l' :: rest2 => .ok (.vNull, rest2)
        | _ => .error "Unexpected token in JSON"
      else if c = '-' ∨ c.isDigit then parseNum (c :: rest)
      else .error "Unexpected token in JSON"

/-- Comma-separated JSON array elements up to the closing bracket. -/
def parseElems (fuel : Nat) (cs : List Char) : Except String (List JsValue × List Char) :=
  match fuel with
  | 0 => .error "Unexpected end of JSON input"
  | fuel + 1 =>
    match parseVal fuel cs with
    | .error e => .error e
    | .ok (v, rest) =>
      match skipWs rest with
      | ',' :: rest2 => (parseElems fuel rest2).map (fun p => (v :: p.1, p.2))
      | ']' :: rest2 => .ok ([v], rest2)
      | _ => .error "Expected comma or closing bracket in JSON"

/-- Comma-separated JSON object members up to the closing brace. -/
def parseFields (fuel : Nat) (cs : List Char) :
    Except String (List (String × JsValue) × List Char) :=
  match fuel with
  | 0 => .error "Unexpected end of JSON input"
  | fuel + 1 =>
    match skipWs cs with
    | '"' :: rest =>
      match parseStrChars (rest.length + 1) rest with
      | .error e => .error e
      | .ok (kChars, rest1) =>
        match skipWs rest1 with
        | ':' :: rest2 =>
          match parseVal fuel rest2 with
          | .error e => .error e
          | .ok (v, rest3) =>
            match skipWs rest3 with
            | ',' :: rest4 =>
              (parseFields fuel rest4).map (fun p => ((String.mk kChars, v) :: p.1, p.2))
            | c :: rest4 =>
              if c = rbrace then .ok ([(String.mk kChars, v)], rest4)
              else .error "Expected comma or closing brace in JSON"
            | [] => .error "Unexpected end of JSON input"
        | _ => .error "Expected colon in JSON"
    | _ => .error "Expected string key in JSON"

end

/-- Model of JSON.parse: a whole-input JSON value, or the parse error. -/
def jsonParse (s : String) : Except String JsValue :=
  match parseVal (s.data.length + 4) s.data with
  | .error e => .error e
  | .ok (v, rest) =>
    match skipWs rest with
    | [] => .ok v
    | _ => .error "Unexpected non-whitespace character after JSON"

/-- Sextet value of a base64 alphabet character, if any; other characters
are ignored by the decoder, modelling Node's lenient Buffer base64 input
handling (padding characters carry no value). -/
def b64Val (c : Char) : Option Nat :=
  if 'A' ≤ c ∧ c ≤ 'Z' then some (c.toNat - 65)
  else if 'a' ≤ c ∧ c ≤ 'z' then some (c.toNat - 71)
  else if '0' ≤ c ∧ c ≤ '9' then some (c.toNat + 4)
  else if c = '+' then some 62
  else if c = '/' then some 63
  else none

/-- Base64 sextet groups to bytes; a trailing group of two or three sextets
yields one or two bytes, a lone trailing sextet is dropped. -/
def b64Bytes : List Nat → List Nat
  | a :: b :: c :: d :: rest =>
    (a * 4 + b / 16) :: ((b % 16) * 16 + c / 4) :: ((c % 4) * 64 + d) :: b64Bytes rest
  | [a, b, c] => [a * 4 + b / 16, (b % 16) * 16 + c / 4]
  | [a, b] => [a * 4 + b / 16]
  | _ => []

/-- Model of Buffer.from(s, base64): decode the base64 alphabet characters
of the string to bytes, never failing. -/
def base64Decode (s : String) : List Nat :=
  b64Bytes (s.data.filterMap b64Val)

/-- The URL-safe alphabet substitution performed before decoding the token
payload: minus to plus and underscore to slash. -/
def b64urlToStd (s : String) : String :=
  String.mk (s.data.map (fun c => if c = '-' then '+' else if c = '_' then '/' else c))

/-- Whether a byte is a UTF-8 continuation byte. -/
def isCont (b : Nat) : Bool := 128 ≤ b ∧ b < 192

/-- UTF-8 bytes to characters with U+FFFD replacement on malformed input,
modelling Buffer.toString(utf8) and TextDecoder.decode; fuel is consumed
at every step together with at least one byte. -/
def utf8Chars (fuel : Nat) (bs : List Nat) : List Char :=
  match fuel, bs with
  | 0, _ => []
  | _, [] => []
  | fuel + 1, b :: rest =>
    if b < 128 then charOfCp b :: utf8Chars fuel rest
    else if b < 192 then charOfCp 0xFFFD :: utf8Chars fuel rest
    else if b < 224 then
      match rest with
      | c1 :: rest1 =>
        if isCont c1 then charOfCp ((b - 192) * 64 + (c1 - 128)) :: utf8Chars fuel rest1
        else charOfCp 0xFFFD :: utf8Chars fuel rest
      | [] => [charOfCp 0xFFFD]
    else if b < 240 then
      match rest with
      | c1 :: c2 :: rest2 =>
        if isCont c1 && isCont c2 then
          charOfCp ((b - 224) * 4096 + (c1 - 128) * 64 + (c2 - 128)) :: utf8Chars fuel rest2
        else charOfCp 0xFFFD :: utf8Chars fuel rest
      | _ => [charOfCp 0xFFFD]
    else
      match rest with
      | c1 :: c2 :: c3 :: rest3 =>
        if isCont c1 && isCont c2 && isCont c3 then
          charOfCp ((b - 240) * 262144 + (c1 - 128) * 4096 + (c2 - 128) * 64 + (c3 - 128))
            :: utf8Chars fuel rest3
        else charOfCp 0xFFFD :: utf8Chars fuel rest
      | _ => [charOfCp 0xFFFD]

/-- UTF-8 decoding of a byte list to a string. -/
def utf8Decode (bs : List Nat) : String :=
  String.mk (utf8Chars bs.length bs)

/-- ASCII whitespace matched by the backslash-s character class of the
Bearer-stripping pattern. -/
def isJsWs (c : Char) : Bool :=
  c = ' ' ∨ c = '\t' ∨ c = '\n' ∨ c = '\r' ∨ c = Char.ofNat 11 ∨ c = Char.ofNat 12

/-- Model of token.replace of a leading case-insensitive Bearer-plus-
whitespace match with the empty string: the greedy whitespace run after
the six letters is removed together with them; anything else is kept. -/
def stripBearer (t : String) : String :=
  let cs := t.data
  let head6 := (cs.take 6).map Char.toLower
  match cs.drop 6 with
  | c :: rest =>
    if head6 = ['b', 'e', 'a', 'r', 'e', 'r'] ∧ isJsWs c then
      String.mk ((c :: rest).dropWhile isJsWs)
    else t
  | [] => t

/-- The interior of parseJWTClaims's try block: strip the Bearer marker,
require exactly three dot-separated segments (else the code returns null
without error), pad and decode the middle segment, JSON-parse the decoded
text; the JSON parse failure escapes to the catch. -/
def parseJWTClaimsInner (token : String) : Except String (Option JsValue) :=
  let cleanToken := stripBearer token
  let parts := splitOnStr cleanToken '.'
  if parts.length ≠ 3 then .ok none
  else
    let payload := (parts.get? 1).getD ""
    let padded := payload ++ String.mk (List.replicate ((4 - payload.length % 4) % 4) '=')
    let decoded := utf8Decode (base64Decode (b64urlToStd padded))
    match jsonParse decoded with
    | .ok v => .ok (some v)
    | .error e => .error e

/-- parseJWTClaims: the inner computation with its catch-all handler
returning null, so the function never raises. -/
def parseJWTClaims (token : String) : Option JsValue :=
  match parseJWTClaimsInner token with
  | .ok r => r
  | .error _ => none

/-- The fixed denylist of sensitive header name fragments. -/
def SENSITIVE_HEADERS : List String :=
  ["authorization", "cookie", "set-cookie", "x-api-key", "x-auth-token",
   "x-access-token", "x-kubiks-key", "bearer", "proxy-authorization",
   "www-authenticate", "proxy-authenticate"]

/-- Whether an already-lowercased header name contains a denylisted
fragment. -/
def isSensitiveHeader (lowerKey : String) : Bool :=
  SENSITIVE_HEADERS.any (fun s => containsStr lowerKey s)

/-- Model of Object.entries on the parsed claim value: objects yield their
fields, arrays and strings yield index-keyed entries, primitives yield
nothing. -/
def claimEntries : JsValue → List (String × JsValue)
  | .vObj fs => fs
  | .vArr xs => (List.range xs.length).zip xs |>.map (fun p => (toString p.1, p.2))
  | .vStr s =>
    (List.range s.data.length).zip s.data |>.map
      (fun p => (toString p.1, JsValue.vStr (String.mk [p.2])))
  | _ => []

/-- Model of JavaScript String(v) for the primitive claim values the code
keeps (integral numbers print like JavaScript; non-integral rationals are
given a placeholder rendering, unreachable from integer-only claims). -/
def scalarToString : JsValue → String
  | .vStr s => s
  | .vBool true => "true"
  | .vBool false => "false"
  | .vNum q => if q.den = 1 then toString q.num else toString q
  | _ => ""

/-- Whether a claim value has one of the primitive types the code keeps. -/
def isScalarJs : JsValue → Bool
  | .vStr _ => true
  | .vBool _ => true
  | .vNum _ => true
  | _ => false

/-- Merging the kept claims of a parsed token value into the claim record,
each under a token-dotted key, modelling the for-of loop over
Object.entries. -/
def addClaims (acc : List (String × String)) (claims : JsValue) : List (String × String) :=
  (claimEntries claims).foldl
    (fun m p => if isScalarJs p.2 then recordSet m ("token." ++ p.1) (scalarToString p.2) else m)
    acc

/-- The pair built by redactSensitiveHeaders. -/
structure RedactionResult where
  redactedHeaders : List (String × String)
  jwtClaims : List (String × String)
deriving DecidableEq

/-- One iteration of the redaction loop over a header entry: a sensitive
name gets the sentinel value, and an authorization-containing name with a
truthy value first contributes any parsed token claims. -/
def redactStep (acc : RedactionResult) (kv : String × String) : RedactionResult :=
  let lowerKey := toLowerStr kv.1
  if isSensitiveHeader lowerKey then
    let claims' :=
      if containsStr lowerKey "authorization" ∧ kv.2 ≠ "" then
        match parseJWTClaims kv.2 with
        | some c => if jsTruthy c then addClaims acc.jwtClaims c else acc.jwtClaims
        | none => acc.jwtClaims
      else acc.jwtClaims
    ⟨acc.redactedHeaders ++ [(kv.1, "[REDACTED]")], claims'⟩
  else ⟨acc.redactedHeaders ++ [(kv.1, kv.2)], acc.jwtClaims⟩

/-- redactSensitiveHeaders: fold the loop body over the entries of the
header record (the source copies the record and mutates the copy in place;
the model rebuilds it entry by entry, each key visited once with its
original value). -/
def redactSensitiveHeaders (headers : List (String × String)) : RedactionResult :=
  headers.foldl redactStep ⟨[], []⟩

/-- Runtime shapes a request body can take, in the order the source probes
them; the last constructor stands for any other value, passed through
unchanged. -/
inductive BodyShape where
  | formData : BodyShape
  | urlSearchParams (pairs : List (String × String)) : BodyShape
  | readableStream : BodyShape
  | bytes (bs : List Nat) : BodyShape
  | str (s : String) : BodyShape
  | other (tag : Nat) : BodyShape
deriving DecidableEq

/-- The capture outcome, one constructor per return site of the two capture
entry points; marker constructors carry exactly the data of the object the
source builds there. -/
inductive CaptureOutcome where
  | formDataSkipped : CaptureOutcome
  | urlParams (pairs : List (String × String)) : CaptureOutcome
  | streamSkipped : CaptureOutcome
  | binaryReq (size : Nat) : CaptureOutcome
  | binaryResp (contentType : String) (size : Option Int) : CaptureOutcome
  | truncatedDeclared (size : Option Int) : CaptureOutcome
  | truncatedPreview (size : Nat) (preview : String) : CaptureOutcome
  | textParsed (v : JsValue) : CaptureOutcome
  | passthrough (tag : Nat) : CaptureOutcome
  | errorReq (msg : String) : CaptureOutcome
  | errorResp (msg : String) : CaptureOutcome
deriving DecidableEq

/-- Model of the URLSearchParams percent-plus decoding of one component:
plus becomes space, a valid percent escape becomes its byte's character,
anything else is kept. -/
def pctChars (fuel : Nat) (cs : List Char) : List Char :=
  match fuel, cs with
  | 0, _ => []
  | _, [] => []
  | fuel + 1, c :: rest =>
    if c = '+' then ' ' :: pctChars fuel rest
    else if c = '%' then
      match rest with
      | h1 :: h2 :: rest2 =>
        match hexVal h1, hexVal h2 with
        | some a, some b => charOfCp (a * 16 + b) :: pctChars fuel rest2
        | _, _ => '%' :: pctChars fuel rest
      | _ => '%' :: pctChars fuel rest
    else c :: pctChars fuel rest

/-- Percent-plus decoding of a component string. -/
def pctDecode (s : String) : String :=
  String.mk (pctChars s.data.length s.data)

/-- One ampersand-separated segment to a decoded key/value pair, split at
the first equals sign. -/
def urlPair (seg : String) : String × String :=
  let k := seg.data.takeWhile (fun c => c ≠ '=')
  match seg.data.dropWhile (fun c => c ≠ '=') with
  | _ :: vs => (pctDecode (String.mk k), pctDecode (String.mk vs))
  | [] => (pctDecode (String.mk k), "")

/-- Model of Object.fromEntries over new URLSearchParams(text): nonempty
ampersand-separated segments decoded to pairs, later duplicates
overwriting earlier ones. -/
def parseUrlEncoded (text : String) : List (String × String) :=
  ((splitOnStr text '&').filter (fun seg => seg ≠ "")).foldl
    (fun m seg => recordSet m (urlPair seg).1 (urlPair seg).2) []

/-- Whether a content-type operand is falsy in JavaScript (absent or the
empty string). -/
def ctFalsy : Option String → Bool
  | none => true
  | some s => s = ""

/-- The interior of parseBodyText's try block.  In the branch for a content
type containing application/json, the JSON parse failure is NOT handled
locally: it escapes as an error — but only as far as this function's own
catch-all handler below.  Every other branch handles its failures itself. -/
def parseBodyTextInner (text : String) (contentType : Option String) : Except String JsValue :=
  if ctFalsy contentType then
    match jsonParse text with
    | .ok v => .ok v
    | .error _ => .ok (.vStr text)
  else
    let lowerContentType := toLowerStr (contentType.getD "")
    if containsStr lowerContentType "application/json" then
      match jsonParse text with
      | .ok v => .ok v
      | .error e => .error e
    else if containsStr lowerContentType "application/x-www-form-urlencoded" then
      .ok (.vObj ((parseUrlEncoded text).map (fun p => (p.1, JsValue.vStr p.2))))
    else if containsStr lowerContentType "text/" then .ok (.vStr text)
    else
      match jsonParse text with
      | .ok v => .ok v
      | .error _ => .ok (.vStr text)

/-- parseBodyText: the interior wrapped in the function's outer catch that
returns the raw text when anything inside failed, so the function itself
never propagates the strict JSON failure to its callers. -/
def parseBodyText (text : String) (contentType : Option String) : JsValue :=
  match parseBodyTextInner text contentType with
  | .ok v => v
  | .error _ => .vStr text

/-- Model of normalizing a HeadersInit to a lowercased-key record; all
three source branches build the same record from entry pairs. -/
def normalizeHeaders (hs : List (String × String)) : List (String × String) :=
  hs.foldl (fun acc p => recordSet acc (toLowerStr p.1) p.2) []

/-- getContentType: the content-type entry of the normalized record of the
given headers, absent when the headers themselves are absent. -/
def getContentType (headers : Option (List (String × String))) : Option String :=
  match headers with
  | none => none
  | some hs => ((normalizeHeaders hs).find? (fun p => p.1 = "content-type")).map (fun p => p.2)

/-- Count of bytes below 32 other than tab, newline and carriage return. -/
def nonPrintableCount (bytes : List Nat) : Nat :=
  (bytes.filter (fun b => b < 32 && b ≠ 9 && b ≠ 10 && b ≠ 13)).length

/-- isBinary: more than thirty percent non-printable bytes, the
floating-point quotient modelled exactly over the rationals. -/
def isBinary (bytes : List Nat) : Bool :=
  decide ((nonPrintableCount bytes : Rat) / (bytes.length : Rat) > 3 / 10)

/-- The fixed denylist of binary content-type fragments. -/
def binaryTypes : List String :=
  ["image/", "video/", "audio/", "application/octet-stream", "application/pdf",
   "application/zip", "multipart/form-data"]

/-- isBinaryContentType: substring match of the lowercased content type
against the binary denylist. -/
def isBinaryContentType (contentType : String) : Bool :=
  binaryTypes.any (fun t => containsStr (toLowerStr contentType) t)

/-- The interior of captureRequestBody's try block, dispatching on the
body's runtime shape.  Under the modelled platform primitives every branch
is total, so the surrounding catch is defensive. -/
def captureRequestBodyInner (body : BodyShape) (headers : Option (List (String × String)))
    (maxBodySize : Nat) : Except String CaptureOutcome :=
  let contentType := getContentType headers
  match body with
  | .formData => .ok .formDataSkipped
  | .urlSearchParams ps => .ok (.urlParams (ps.foldl (fun m p => recordSet m p.1 p.2) []))
  | .readableStream => .ok .streamSkipped
  | .bytes bs =>
    if isBinary bs then .ok (.binaryReq bs.length)
    else .ok (.textParsed (parseBodyText (utf8Decode bs) contentType))
  | .str s =>
    if s.length > maxBodySize then .ok (.truncatedPreview s.length (s.take 100))
    else .ok (.textParsed (parseBodyText s contentType))
  | .other tag => .ok (.passthrough tag)

/-- captureRequestBody: the interior with the catch-all handler producing
the request error marker, so the call never propagates an exception. -/
def captureRequestBody (body : BodyShape) (headers : Option (List (String × String)))
    (maxBodySize : Nat) : CaptureOutcome :=
  match captureRequestBodyInner body headers maxBodySize with
  | .ok o => o
  | .error m => .errorReq m

/-- Model of a fetch Response as the capture path observes it: header
entries, status data, and the result of awaiting text() — the one modelled
primitive on this path that can genuinely fail. -/
structure Resp where
  status : Nat
  statusText : String
  headers : List (String × String)
  textResult : Except String String

instance {α β : Type} [DecidableEq α] [DecidableEq β] : DecidableEq (Except α β) := fun a b =>
  match a, b with
  | .ok x, .ok y => if h : x = y then isTrue (by rw [h]) else isFalse (by simp [h])
  | .error x, .error y => if h : x = y then isTrue (by rw [h]) else isFalse (by simp [h])
  | .ok _, .error _ => isFalse nofun
  | .error _, .ok _ => isFalse nofun

instance : DecidableEq Resp := fun a b =>
  if h : a.status = b.status ∧ a.statusText = b.statusText ∧ a.headers = b.headers
      ∧ a.textResult = b.textResult then
    isTrue (by cases a; cases b; simp_all)
  else isFalse (by intro hh; apply h; rw [hh]; exact ⟨rfl, rfl, rfl, rfl⟩)

/-- Model of Headers.get: the first case-insensitive match. -/
def headersGet (hs : List (String × String)) (name : String) : Option String :=
  (hs.find? (fun p => toLowerStr p.1 = toLowerStr name)).map (fun p => p.2)

/-- Model of JavaScript parseInt base 10: optional whitespace and sign,
then leading digits; no digits means NaN, modelled as none. -/
def parseIntJS (s : String) : Option Int :=
  let cs := s.data.dropWhile isJsWs
  let (neg, cs1) := match cs with
    | '-' :: rest => (true, rest)
    | '+' :: rest => (false, rest)
    | _ => (false, cs)
  let ds := cs1.takeWhile Char.isDigit
  if ds = [] then none
  else some (if neg then -(digitsToNat ds : Int) else (digitsToNat ds : Int))

/-- The declared response length: parseInt of the content-length header
with the falsy-to-zero fallback of the source. -/
def declaredLength (r : Resp) : Option Int :=
  parseIntJS (match headersGet r.headers "content-length" with
    | none => "0"
    | some s => if s = "" then "0" else s)

/-- The declared response content type with its empty-string fallback. -/
def respContentType (r : Resp) : String :=
  (headersGet r.headers "content-type").getD ""

/-- Whether the declared length exceeds the configured bound (a NaN length
compares false, as in JavaScript). -/
def lenExceeds (maxBodySize : Nat) (r : Resp) : Bool :=
  match declaredLength r with
  | some n => n > (maxBodySize : Int)
  | none => false

/-- The interior of captureResponseBody's try block: the declared-length
and binary-type early returns read only headers; otherwise the body text
is awaited (whose failure escapes to the catch) and bounded, then handed
to the shared text parser. -/
def captureResponseBodyInner (maxBodySize : Nat) (r : Resp) : Except String CaptureOutcome :=
  if lenExceeds maxBodySize r then .ok (.truncatedDeclared (declaredLength r))
  else if isBinaryContentType (respContentType r) then
    .ok (.binaryResp (respContentType r) (declaredLength r))
  else
    match r.textResult with
    | .error e => .error e
    | .ok text =>
      if text.length > maxBodySize then .ok (.truncatedPreview text.length (text.take 100))
      else .ok (.textParsed (parseBodyText text (some (respContentType r))))

/-- captureResponseBody: the interior with the catch-all handler producing
the response error marker, so the call never propagates an exception. -/
def captureResponseBody (maxBodySize : Nat) (r : Resp) : CaptureOutcome :=
  match captureResponseBodyInner maxBodySize r with
  | .ok o => o
  | .error m => .errorResp m

/-- Four-hex-digit rendering of a code point for JSON string escapes. -/
def hex4 (n : Nat) : String :=
  let d := fun k => String.mk [(List.filterMap hexDigitChar [k]).headD '0']
  d (n / 4096 % 16) ++ d (n / 256 % 16) ++ d (n / 16 % 16) ++ d (n % 16)
where
  hexDigitChar (k : Nat) : Option Char :=
    if k < 10 then some (Char.ofNat (48 + k))
    else if k < 16 then some (Char.ofNat (87 + k)) else none

/-- JSON escape of one character as JSON.stringify performs it. -/
def escJsonChar (c : Char) : String :=
  if c = '"' then "\\\""
  else if c = '\\' then "\\\\"
  else if c = '\n' then "\\n"
  else if c = '\r' then "\\r"
  else if c = '\t' then "\\t"
  else if c = Char.ofNat 8 then "\\b"
  else if c = Char.ofNat 12 then "\\f"
  else if c.toNat < 32 then "\\u" ++ hex4 c.toNat
  else String.mk [c]

/-- JSON rendering of a JavaScript number (integral values print like
JavaScript; a non-integral rational gets a placeholder rendering, not
relied on by any claim). -/
def numToString (q : Rat) : String :=
  if q.den = 1 then toString q.num else toString q

mutual

/-- Model of JSON.stringify on the values the capture pipeline produces. -/
def stringifyJs : JsValue → String
  | .vNull => "null"
  | .vBool true => "true"
  | .vBool false => "false"
  | .vNum q => numToString q
  | .vStr s => "\"" ++ String.join (s.data.map escJsonChar) ++ "\""
  | .vArr xs => "[" ++ stringifyElems xs ++ "]"
  | .vObj fs => String.mk [lbrace] ++ stringifyFields fs ++ String.mk [rbrace]

/-- Comma-joined array elements. -/
def stringifyElems : List JsValue → String
  | [] => ""
  | [x] => stringifyJs x
  | x :: xs => stringifyJs x ++ "," ++ stringifyElems xs

/-- Comma-joined object members. -/
def stringifyFields : List (String × JsValue) → String
  | [] => ""
  | [(k, v)] => "\"" ++ String.join (k.data.map escJsonChar) ++ "\":" ++ stringifyJs v
  | (k, v) :: fs =>
    "\"" ++ String.join (k.data.map escJsonChar) ++ "\":" ++ stringifyJs v ++ ","
      ++ stringifyFields fs

end

/-- Rendering of an optional integer where JavaScript would interpolate
NaN. -/
def lenToString : Option Int → String
  | some n => toString n
  | none => "NaN"

/-- The optional integer as the JSON value JSON.stringify would emit for
it (NaN serializes as null). -/
def lenToJs : Option Int → JsValue
  | some n => .vNum n
  | none => .vNull

/-- The JavaScript value each capture outcome stands for: markers are the
object literals of their return sites, parsed text is itself, and the
pass-through shape keeps an opaque rendering. -/
def outcomeToJs : CaptureOutcome → JsValue
  | .formDataSkipped =>
    .vObj [("_type", .vStr "FormData"),
           ("_note", .vStr "FormData not captured (likely contains files)")]
  | .urlParams ps => .vObj (ps.map (fun p => (p.1, JsValue.vStr p.2)))
  | .streamSkipped =>
    .vObj [("_type", .vStr "ReadableStream"), ("_note", .vStr "Stream not captured")]
  | .binaryReq n =>
    .vObj [("_type", .vStr "Binary"), ("_size", .vNum n),
           ("_note", .vStr "Binary data not captured")]
  | .binaryResp ct n =>
    .vObj [("_type", .vStr "Binary"), ("_contentType", .vStr ct), ("_size", lenToJs n),
           ("_note", .vStr "Binary content not captured")]
  | .truncatedDeclared n =>
    .vObj [("_truncated", .vBool true), ("_size", lenToJs n),
           ("_note", .vStr ("Response too large (" ++ lenToString n ++ " bytes)"))]
  | .truncatedPreview n p =>
    .vObj [("_truncated", .vBool true), ("_size", .vNum n), ("_preview", .vStr p)]
  | .textParsed v => v
  | .passthrough tag => .vObj [("_unmodelled", .vNum tag)]
  | .errorReq m =>
    .vObj [("_error", .vStr "Failed to capture request body"), ("_message", .vStr m)]
  | .errorResp m =>
    .vObj [("_error", .vStr "Failed to capture response body"), ("_message", .vStr m)]

/-- The span attribute value for a captured body: kept as-is when already a
string, JSON-stringified otherwise. -/
def renderOutcome (o : CaptureOutcome) : String :=
  match outcomeToJs o with
  | .vStr s => s
  | v => stringifyJs v

/-- JavaScript truthiness of the value a capture outcome stands for. -/
def outcomeTruthy (o : CaptureOutcome) : Bool :=
  jsTruthy (outcomeToJs o)

/-- JavaScript truthiness of a request body operand. -/
def bodyTruthy : BodyShape → Bool
  | .str s => s != ""
  | _ => true

/-- The span operations performed by the orchestrator callback, in order. -/
inductive SpanOp where
  | setAttrs (kvs : List (String × String)) : SpanOp
  | setAttr (k v : String) : SpanOp
  | setStatusOk : SpanOp
  | setStatusError (msg : String) : SpanOp
  | endSpan : SpanOp
deriving DecidableEq

/-- The interceptor configuration after the constructor merged the caller's
options over the defaults. -/
structure InterceptorOptions where
  captureRequestBody : Bool := true
  captureResponseBody : Bool := true
  captureHeaders : Bool := true
  maxBodySize : Nat := 10000
deriving DecidableEq

/-- The request-init argument of a call as the orchestrator reads it. -/
structure ReqInit where
  method : Option String := none
  headers : Option (List (String × String)) := none
  body : Option BodyShape := none

/-- The headers operand of the call (absent init or absent field both read
as absent). -/
def initHeaders (i : Option ReqInit) : Option (List (String × String)) :=
  match i with
  | none => none
  | some r => r.headers

/-- The body operand of the call. -/
def initBody (i : Option ReqInit) : Option BodyShape :=
  match i with
  | none => none
  | some r => r.body

/-- Dotted keys of header attributes nested under a fixed path, as the
flatten call produces them. -/
def flattenUnder (path : String) (hs : List (String × String)) : List (String × String) :=
  hs.map (fun p => (path ++ p.1, p.2))

/-- The attributes the span is opened with (URL scheme and host parsing is
elided: it happens before the modelled callback and no claim concerns
it). -/
def startSpanOps (method url : String) : List SpanOp :=
  [SpanOp.setAttrs [("http.method", method), ("http.url", url),
    ("kubiks.otel.source", "otel-nextjs"),
    ("kubiks.otel.instrumentation", "fetch-interceptor")]]

/-- Request-header capture: when enabled and headers are present, attach
the flattened redacted headers and, when any, the extracted claims. -/
def headerCapOps (o : InterceptorOptions) (i : Option ReqInit) : List SpanOp :=
  if o.captureHeaders then
    match initHeaders i with
    | some hs =>
      let rr := redactSensitiveHeaders (normalizeHeaders hs)
      SpanOp.setAttrs (flattenUnder "request.headers." rr.redactedHeaders)
        :: (if rr.jwtClaims.isEmpty then [] else [SpanOp.setAttrs rr.jwtClaims])
    | none => []
  else []

/-- Request-body capture: when enabled and the body operand is truthy, run
the capture and attach its rendering as the single request.body attribute
only when the outcome value is truthy. -/
def bodyCapOps (o : InterceptorOptions) (i : Option ReqInit) : List SpanOp :=
  if o.captureRequestBody then
    match initBody i with
    | some b =>
      if bodyTruthy b then
        let d := captureRequestBody b (initHeaders i) o.maxBodySize
        if outcomeTruthy d then [SpanOp.setAttr "request.body" (renderOutcome d)] else []
      else []
    | none => []
  else []

/-- Everything the callback does before delegating to the transport. -/
def requestPhaseOps (o : InterceptorOptions) (i : Option ReqInit) : List SpanOp :=
  headerCapOps o i ++ bodyCapOps o i

/-- Status attributes recorded from the response. -/
def respMetaOps (r : Resp) : List SpanOp :=
  [SpanOp.setAttrs [("http.status_code", toString r.status),
    ("http.status_text", r.statusText)]]

/-- Response-header capture. -/
def respHeaderOps (o : InterceptorOptions) (r : Resp) : List SpanOp :=
  if o.captureHeaders then
    let rh := r.headers.foldl (fun acc p => recordSet acc (toLowerStr p.1) p.2) []
    let rr := redactSensitiveHeaders rh
    SpanOp.setAttrs (flattenUnder "response.headers." rr.redactedHeaders)
      :: (if rr.jwtClaims.isEmpty then [] else [SpanOp.setAttrs rr.jwtClaims])
  else []

/-- Response-body capture over the cloned response (the clone is modelled
as the same observed response, the original staying consumable). -/
def respBodyOps (o : InterceptorOptions) (r : Resp) : List SpanOp :=
  if o.captureResponseBody then
    let d := captureResponseBody o.maxBodySize r
    if outcomeTruthy d then [SpanOp.setAttr "response.body" (renderOutcome d)] else []
  else []

/-- Everything the callback does after the transport returned. -/
def responsePhaseOps (o : InterceptorOptions) (r : Resp) : List SpanOp :=
  respMetaOps r ++ respHeaderOps o r ++ respBodyOps o r

/-- The orchestrator callback over one intercepted call, given the
transport's result (an exception is modelled by its message): the try
block runs the request phase, delegates, runs the response phase and sets
status OK; the catch sets status ERROR with the exception's message and
re-raises it; the finally ends the span on both paths. -/
def interceptCall (o : InterceptorOptions) (method url : String) (i : Option ReqInit)
    (transport : Except String Resp) : List SpanOp × Except String Resp :=
  match transport with
  | .error e =>
    (startSpanOps method url ++ requestPhaseOps o i
      ++ [SpanOp.setStatusError e, SpanOp.endSpan], .error e)
  | .ok r =>
    (startSpanOps method url ++ requestPhaseOps o i ++ responsePhaseOps o r
      ++ [SpanOp.setStatusOk, SpanOp.endSpan], .ok r)

/-- The process-wide transport slot: the genuine platform function or an
interceptor-wrapped layer remembering what it replaced. -/
inductive FetchFn where
  | base (id : Nat) : FetchFn
  | wrapped (opts : InterceptorOptions) (original : FetchFn) : FetchFn
deriving DecidableEq

/-- An installed interceptor instance: its merged options and the
transport function it saved at construction. -/
structure Interceptor where
  options : InterceptorOptions
  originalFetch : FetchFn
deriving DecidableEq

/-- The module-level state: the global fetch slot and the singleton
instance slot. -/
structure ModuleState where
  globalFetch : FetchFn
  interceptorInstance : Option Interceptor
deriving DecidableEq

/-- The FetchInterceptor constructor: save the current global fetch as
original, then replace the global slot with the wrapped version. -/
def newInterceptor (opts : InterceptorOptions) (g : FetchFn) : Interceptor × FetchFn :=
  (⟨opts, g⟩, .wrapped opts g)

/-- FetchInterceptor.restore: write the saved original back to the global
slot. -/
def restoreFetch (i : Interceptor) (s : ModuleState) : ModuleState :=
  { s with globalFetch := i.originalFetch }

/-- enableFetchBodyCapture: restore any active instance first, then
construct and register the new one. -/
def enableFetchBodyCapture (opts : InterceptorOptions) (s : ModuleState) :
    Interceptor × ModuleState :=
  let s1 := match s.interceptorInstance with
    | some i => restoreFetch i s
    | none => s
  let (i, gf) := newInterceptor opts s1.globalFetch
  (i, ⟨gf, some i⟩)

/-- disableFetchBodyCapture: when an instance is active, restore it and
clear the slot; otherwise do nothing. -/
def disableFetchBodyCapture (s : ModuleState) : ModuleState :=
  match s.interceptorInstance with
  | some i => ⟨i.originalFetch, none⟩
  | none => s

/-- Spec tag: decoded structured data (URL-encoded pairs, non-string parsed
text, or a passed-through value). -/
def isStructuredData : CaptureOutcome → Bool
  | .urlParams _ => true
  | .textParsed (.vStr _) => false
  | .textParsed _ => true
  | .passthrough _ => true
  | _ => false

/-- Spec tag: raw text. -/
def isRawText : CaptureOutcome → Bool
  | .textParsed (.vStr _) => true
  | _ => false

/-- Spec tag: binary-skip marker. -/
def isBinarySkip : CaptureOutcome → Bool
  | .binaryReq _ => true
  | .binaryResp _ _ => true
  | _ => false

/-- Spec tag: truncation marker. -/
def isTruncationMarker : CaptureOutcome → Bool
  | .truncatedDeclared _ => true
  | .truncatedPreview _ _ => true
  | _ => false

/-- Spec tag: form-data-skip marker. -/
def isFormDataSkip : CaptureOutcome → Bool
  | .formDataSkipped => true
  | _ => false

/-- Spec tag: stream-skip marker. -/
def isStreamSkip : CaptureOutcome → Bool
  | .streamSkipped => true
  | _ => false

/-- Spec tag: error marker. -/
def isErrorMarker : CaptureOutcome → Bool
  | .errorReq _ => true
  | .errorResp _ => true
  | _ => false

/-- How many of the seven spec outcome tags hold of an outcome. -/
def specTagCount (o : CaptureOutcome) : Nat :=
  [isStructuredData o, isRawText o, isBinarySkip o, isTruncationMarker o,
   isFormDataSkip o, isStreamSkip o, isErrorMarker o].count true

/-- Whether JSON parsing of a text succeeds. -/
def jsonParses (s : String) : Bool :=
  match jsonParse s with
  | .ok _ => true
  | .error _ => false

/-- A bearer token whose middle segment is the base64url encoding of the
JSON object with sub u1 and admin true. -/
def jwtTok : String := "Bearer xxx.eyJzdWIiOiJ1MSIsImFkbWluIjp0cnVlfQ.sig"

/-- A header record declaring JSON content. -/
def ctJson : List (String × String) := [("Content-Type", "application/json")]

/-- A 20000-character body. -/
def bigBody : String := String.mk (List.replicate 20000 'a')

/-- Ten bytes of which forty percent are control bytes outside tab, newline
and carriage return. -/
def ctrl40 : List Nat := [0, 0, 0, 0, 65, 65, 65, 65, 65, 65]

/-- Ten bytes of which twenty percent are such control bytes. -/
def ctrl20 : List Nat := [0, 0, 65, 65, 65, 65, 65, 65, 65, 65]

/-- A response whose text read fails. -/
def respTextFails : Resp := ⟨200, "OK", [], .error "stream failed"⟩

/-- A response declaring a 50000-byte length. -/
def respDeclaredBig : Resp := ⟨200, "OK", [("Content-Length", "50000")], .ok "ignored"⟩

/-- A response declaring a small binary payload. -/
def respPng : Resp :=
  ⟨200, "OK", [("Content-Type", "image/png"), ("Content-Length", "17")], .ok "ignored"⟩

/-- A JSON response with a truthy parsed body. -/
def respJsonOk : Resp :=
  ⟨200, "OK", [("content-type", "application/json")], .ok "\x7b\"a\":1\x7d"⟩

/-- The default configuration. -/
def optsDefault : InterceptorOptions := {}

/-- A call init with a truthy plain-string body. -/
def initTruthy : Option ReqInit := some { body := some (.str "hello") }

/-- A pristine module state with the platform transport installed. -/
def stateBase : ModuleState := ⟨.base 0, none⟩

/-- Helper: exactly one of the seven spec tags holds of any outcome. -/
theorem specTagCount_eq_one : ∀ o : CaptureOutcome, specTagCount o = 1
  | .formDataSkipped => rfl
  | .urlParams _ => rfl
  | .streamSkipped => rfl
  | .binaryReq _ => rfl
  | .binaryResp _ _ => rfl
  | .truncatedDeclared _ => rfl
  | .truncatedPreview _ _ => rfl
  | .textParsed v => by cases v <;> rfl
  | .passthrough _ => rfl
  | .errorReq _ => rfl
  | .errorResp _ => rfl

/-- Helper: the redaction fold rebuilds the header record pointwise. -/
theorem redact_foldl_redacted (hs : List (String × String)) (acc : RedactionResult) :
    (List.foldl redactStep acc hs).redactedHeaders
      = acc.redactedHeaders
        ++ hs.map (fun p => (p.1, if isSensitiveHeader (toLowerStr p.1) then "[REDACTED]" else p.2)) := by
  induction hs generalizing acc with
  | nil => simp
  | cons p tl ih =>
    by_cases h : isSensitiveHeader (toLowerStr p.1)
    · simp only [List.foldl_cons, ih, List.map_cons, redactStep, h, if_true]
      simp [redactStep, h]
    · simp only [List.foldl_cons, ih, List.map_cons]
      simp [redactStep, h]

/-- C3: redactSensitiveHeaders returns the record with exactly the input's
keys in the input's casing and order, the value [REDACTED] at every key
whose lowercase form contains a denylisted fragment, and the original
value at every other key; being a pure Lean function of its input, it
leaves the input unchanged. -/
theorem redactSensitiveHeaders_pointwise (hs : List (String × String)) :
    (redactSensitiveHeaders hs).redactedHeaders
      = hs.map (fun p => (p.1, if isSensitiveHeader (toLowerStr p.1) then "[REDACTED]" else p.2))
    ∧ ((redactSensitiveHeaders hs).redactedHeaders).map Prod.fst = hs.map Prod.fst := by
  have h := redact_foldl_redacted hs ⟨[], []⟩
  refine ⟨by simpa [redactSensitiveHeaders] using h, ?_⟩
  simp [redactSensitiveHeaders, h]

/-- C9: the binary heuristic counts bytes below 32 other than 9, 10 and 13
and flags a nonempty byte sequence as binary exactly when that count
exceeds thirty percent of the length. -/
theorem isBinary_thirty_percent (bs : List Nat) (h : bs ≠ []) :
    isBinary bs = true ↔ 10 * nonPrintableCount bs > 3 * bs.length := by
  have hl : 0 < bs.length := List.length_pos.mpr h
  have hlq : (0 : Rat) < (bs.length : Rat) := by exact_mod_cast hl
  rw [isBinary, decide_eq_true_iff, gt_iff_lt, gt_iff_lt, div_lt_div_iff₀ (by norm_num) hlq]
  constructor
  · intro h2
    have : (3 * bs.length : Rat) < (10 * nonPrintableCount bs : Rat) := by linarith
    exact_mod_cast this
  · intro h2
    have : (3 * bs.length : Rat) < (10 * nonPrintableCount bs : Rat) := by exact_mod_cast h2
    push_cast at this; linarith

/-- Witness for C9: a sequence with forty percent such control bytes is
classified binary, one with twenty percent is not. -/
theorem isBinary_thirty_percent_witness :
    ctrl40 ≠ [] ∧ isBinary ctrl40 = true ∧ isBinary ctrl20 = false := by
  refine ⟨by decide, (isBinary_thirty_percent ctrl40 (by decide)).mpr (by decide), ?_⟩
  have h := isBinary_thirty_percent ctrl20 (by decide)
  cases hb : isBinary ctrl20 with
  | false => rfl
  | true => exact absurd (h.mp hb) (by decide)

/-- C8: a plain string body longer than the configured bound becomes a
truncation marker carrying the full length and the first hundred
characters; one within the bound is handed to the shared text parser. -/
theorem captureRequestBody_string_bound (s : String)
    (headers : Option (List (String × String))) (maxBodySize : Nat) :
    (s.length > maxBodySize →
      captureRequestBody (.str s) headers maxBodySize
        = .truncatedPreview s.length (s.take 100))
    ∧ (s.length ≤ maxBodySize →
      captureRequestBody (.str s) headers maxBodySize
        = .textParsed (parseBodyText s (getContentType headers))) := by
  constructor
  · intro h
    simp [captureRequestBody, captureRequestBodyInner, h]
  · intro h
    simp [captureRequestBody, captureRequestBodyInner, Nat.not_lt.mpr h]

/-- Witness for C8: a 20000-character body against the default 10000 bound
with no declared content type truncates to the hundred-character preview
and records the full size. -/
theorem captureRequestBody_string_bound_witness :
    bigBody.length > 10000
    ∧ captureRequestBody (.str bigBody) none 10000
        = .truncatedPreview bigBody.length (bigBody.take 100) := by
  have h20 : bigBody.length = 20000 := by
    show (List.replicate 20000 'a').length = 20000
    exact List.length_replicate 20000 'a'
  have hlen : bigBody.length > 10000 := by omega
  exact ⟨hlen, (captureRequestBody_string_bound bigBody none 10000).1 hlen⟩

/-- C2: each capture entry point is a total function of its inputs (under
the modelled primitives, the one genuinely fallible step being the
response text read): an interior success is returned as-is, an interior
exception is returned as the direction's error marker carrying the failure
message, and exactly one of the seven spec outcome tags holds of whatever
is returned. -/
theorem capture_contains_failures (b : BodyShape)
    (headers : Option (List (String × String))) (maxBodySize : Nat) (r : Resp) :
    (∀ e, captureRequestBodyInner b headers maxBodySize = .error e →
      captureRequestBody b headers maxBodySize = .errorReq e)
    ∧ (∀ ov, captureRequestBodyInner b headers maxBodySize = .ok ov →
      captureRequestBody b headers maxBodySize = ov)
    ∧ (∀ e, captureResponseBodyInner maxBodySize r = .error e →
      captureResponseBody maxBodySize r = .errorResp e)
    ∧ (∀ ov, captureResponseBodyInner maxBodySize r = .ok ov →
      captureResponseBody maxBodySize r = ov)
    ∧ specTagCount (captureRequestBody b headers maxBodySize) = 1
    ∧ specTagCount (captureResponseBody maxBodySize r) = 1 := by
  refine ⟨?_, ?_, ?_, ?_, specTagCount_eq_one _, specTagCount_eq_one _⟩
  · intro e he; simp [captureRequestBody, he]
  · intro ov hv; simp [captureRequestBody, hv]
  · intro e he; simp [captureResponseBody, he]
  · intro ov hv; simp [captureResponseBody, hv]

/-- Witness for C2: a response whose text read fails yields the response
error marker with that failure's message, and concrete outcomes of both
entry points carry exactly one tag. -/
theorem capture_contains_failures_witness :
    captureResponseBody 10000 respTextFails = .errorResp "stream failed"
    ∧ specTagCount (captureRequestBody (.str "x") none 10000) = 1
    ∧ specTagCount (captureResponseBody 10000 respTextFails) = 1 := by
  have h := capture_contains_failures (.str "x") none 10000 respTextFails
  exact ⟨h.2.2.1 "stream failed" (by decide), h.2.2.2.2.1, h.2.2.2.2.2⟩

/-- Counterexample to C1 as stated: the body left brace b-a-d is not valid
JSON, the declared content type is application/json, the body is within
the size bound, and yet the capture outcome is the raw text, not an error
marker — the JSON parse failure is caught by the shared text parser's own
outer handler rather than propagating to the capture entry point. -/
theorem declaredJson_failure_not_error_marker :
    jsonParses "\x7bbad" = false
    ∧ captureRequestBody (.str "\x7bbad") (some ctJson) 10000
        = .textParsed (.vStr "\x7bbad")
    ∧ isErrorMarker (captureRequestBody (.str "\x7bbad") (some ctJson) 10000) = false := by
  decide

/-- C1 amended: for every body text that is not valid JSON, when the
declared content type contains application/json, the JSON parse failure is
caught inside the shared text parser (by its outer catch-all handler,
which returns the raw text unchanged), so the capture outcome for a string
body within the size bound is the raw text, not an error marker. -/
theorem declaredJson_failure_yields_raw_text (text cts : String)
    (headers : Option (List (String × String))) (maxBodySize : Nat) (e : String)
    (hparse : jsonParse text = .error e)
    (hct : getContentType headers = some cts)
    (hne : cts ≠ "")
    (hjson : containsStr (toLowerStr cts) "application/json" = true)
    (hlen : text.length ≤ maxBodySize) :
    parseBodyText text (some cts) = .vStr text
    ∧ captureRequestBody (.str text) headers maxBodySize = .textParsed (.vStr text) := by
  have hpt : parseBodyText text (some cts) = .vStr text := by
    simp [parseBodyText, parseBodyTextInner, ctFalsy, hne, hjson, hparse]
  refine ⟨hpt, ?_⟩
  have h2 := (captureRequestBody_string_bound text headers maxBodySize).2 hlen
  rw [h2, hct, hpt]

/-- Witness for C1 amended: the concrete malformed body under the declared
JSON content type decodes to its own raw text. -/
theorem declaredJson_failure_yields_raw_text_witness :
    jsonParse "\x7bbad" = .error "Expected string key in JSON"
    ∧ getContentType (some ctJson) = some "application/json"
    ∧ parseBodyText "\x7bbad" (some "application/json") = .vStr "\x7bbad"
    ∧ captureRequestBody (.str "\x7bbad") (some ctJson) 10000
        = .textParsed (.vStr "\x7bbad") := by
  have h := declaredJson_failure_yields_raw_text "\x7bbad" "application/json"
    (some ctJson) 10000 "Expected string key in JSON"
    (by decide) (by decide) (by decide) (by decide) (by decide)
  exact ⟨by decide, by decide, h.1, h.2⟩

/-- C4: the token claim parser strips an optional leading case-insensitive
Bearer marker, returns null unless splitting on dots yields exactly three
segments, returns null rather than raising whenever the interior decode or
parse fails, and on the concrete well-formed token whose middle segment
encodes the object with sub u1 and admin true the extracted claims contain
token.sub u1 and token.admin true; non-primitive claim values are
dropped. -/
theorem parseJWTClaims_spec :
    (∀ t : String, (splitOnStr (stripBearer t) '.').length ≠ 3 → parseJWTClaims t = none)
    ∧ (∀ t e, parseJWTClaimsInner t = .error e → parseJWTClaims t = none)
    ∧ (∀ s : String, (∀ c ∈ s.data, isJsWs c = false) → stripBearer ("Bearer " ++ s) = s)
    ∧ parseJWTClaims jwtTok = some (.vObj [("sub", .vStr "u1"), ("admin", .vBool true)])
    ∧ ("token.sub", "u1") ∈ (redactSensitiveHeaders [("Authorization", jwtTok)]).jwtClaims
    ∧ ("token.admin", "true") ∈ (redactSensitiveHeaders [("Authorization", jwtTok)]).jwtClaims
    ∧ (∀ acc k v, isScalarJs v = false → addClaims acc (.vObj [(k, v)]) = acc) := by
  refine ⟨?_, ?_, ?_, by decide, by decide, by decide, ?_⟩
  · intro t ht
    simp [parseJWTClaims, parseJWTClaimsInner, ht]
  · intro t e he
    simp [parseJWTClaims, he]
  · intro s hs
    have hdrop : s.data.dropWhile isJsWs = s.data := by
      cases hsd : s.data with
      | nil => rfl
      | cons a as =>
        have ha : isJsWs a = false := hs a (by rw [hsd]; exact List.mem_cons_self a as)
        simp [List.dropWhile, ha]
    have h1 : stripBearer ("Bearer " ++ s) = String.mk (s.data.dropWhile isJsWs) := rfl
    rw [h1, hdrop]
  · intro acc k v hv
    simp [addClaims, claimEntries, hv]

/-- Witness for C4: a two-segment token yields null, a token whose middle
segment decodes to no JSON yields null, the Bearer marker is stripped from
a concrete token, and a non-primitive claim value is dropped. -/
theorem parseJWTClaims_spec_witness :
    parseJWTClaims "a.b" = none
    ∧ parseJWTClaims "x.!!!.y" = none
    ∧ stripBearer ("Bearer " ++ "abc.def.ghi") = "abc.def.ghi"
    ∧ addClaims [] (.vObj [("k", JsValue.vNull)]) = [] := by
  have h := parseJWTClaims_spec
  exact ⟨h.1 "a.b" (by decide),
    h.2.1 "x.!!!.y" "Unexpected end of JSON input" (by decide),
    h.2.2.1 "abc.def.ghi" (by decide),
    h.2.2.2.2.2.2 [] "k" JsValue.vNull (by decide)⟩

/-- C7: a response whose declared content length exceeds the configured
bound yields the declared-size truncation marker whatever its body text
would have been (the body is not read); otherwise a response whose
declared content type contains a binary-denylist fragment yields the
binary-skip marker, likewise independent of the body text. -/
theorem captureResponseBody_early_markers (maxBodySize : Nat) (r : Resp) :
    (lenExceeds maxBodySize r = true →
      ∀ t, captureResponseBody maxBodySize { r with textResult := t }
        = .truncatedDeclared (declaredLength r))
    ∧ (lenExceeds maxBodySize r = false →
      isBinaryContentType (respContentType r) = true →
      ∀ t, captureResponseBody maxBodySize { r with textResult := t }
        = .binaryResp (respContentType r) (declaredLength r)) := by
  have hhd : ∀ t, ({ r with textResult := t } : Resp).headers = r.headers := fun _ => rfl
  constructor
  · intro h t
    have hlen : lenExceeds maxBodySize { r with textResult := t } = true := h
    simp [captureResponseBody, captureResponseBodyInner, hlen, declaredLength, hhd]
  · intro h hbin t
    have hlen : lenExceeds maxBodySize { r with textResult := t } = false := h
    simp only [respContentType] at hbin
    simp [captureResponseBody, captureResponseBodyInner, hlen, hbin, respContentType,
      declaredLength, hhd]

/-- Witness for C7: a declared 50000-byte response against the 10000 bound
truncates without reading, and a small image/png response is binary-skipped
without reading. -/
theorem captureResponseBody_early_markers_witness :
    lenExceeds 10000 respDeclaredBig = true
    ∧ captureResponseBody 10000 respDeclaredBig = .truncatedDeclared (some 50000)
    ∧ lenExceeds 10000 respPng = false
    ∧ isBinaryContentType (respContentType respPng) = true
    ∧ captureResponseBody 10000 respPng = .binaryResp "image/png" (some 17) := by
  have h1 := (captureResponseBody_early_markers 10000 respDeclaredBig).1 (by decide)
    (Except.ok "ignored")
  have h2 := (captureResponseBody_early_markers 10000 respPng).2 (by decide) (by decide)
    (Except.ok "ignored")
  refine ⟨by decide, ?_, by decide, by decide, ?_⟩
  · exact h1.trans (by rfl)
  · exact h2.trans (by rfl)

/-- C6: the installer maintains the singleton invariant of the process-wide
transport slot: installing over an active handle first restores it, so the
new handle saves the genuine pre-install transport and the slot holds a
single wrapping layer over it; after a restore the slot again holds the
saved original and the instance slot is empty; restoring with no active
instance is a no-op, a second restore changes nothing, and writing back an
already-restored handle's original leaves the state unchanged. -/
theorem installer_singleton :
    (∀ opts s, s.interceptorInstance = none →
      (enableFetchBodyCapture opts s).1.originalFetch = s.globalFetch
      ∧ (enableFetchBodyCapture opts s).2.globalFetch = .wrapped opts s.globalFetch
      ∧ (enableFetchBodyCapture opts s).2.interceptorInstance
          = some (enableFetchBodyCapture opts s).1)
    ∧ (∀ opts1 opts2 s, s.interceptorInstance = none →
      (enableFetchBodyCapture opts2 (enableFetchBodyCapture opts1 s).2).1.originalFetch
          = s.globalFetch
      ∧ (enableFetchBodyCapture opts2 (enableFetchBodyCapture opts1 s).2).2.globalFetch
          = .wrapped opts2 s.globalFetch)
    ∧ (∀ s i, s.interceptorInstance = some i →
      (disableFetchBodyCapture s).globalFetch = i.originalFetch
      ∧ (disableFetchBodyCapture s).interceptorInstance = none)
    ∧ (∀ s, s.interceptorInstance = none → disableFetchBodyCapture s = s)
    ∧ (∀ s, disableFetchBodyCapture (disableFetchBodyCapture s) = disableFetchBodyCapture s)
    ∧ (∀ i s, s.globalFetch = i.originalFetch → restoreFetch i s = s) := by
  refine ⟨?_, ?_, ?_, ?_, ?_, ?_⟩
  · intro opts s h
    simp [enableFetchBodyCapture, newInterceptor, h]
  · intro opts1 opts2 s h
    simp [enableFetchBodyCapture, newInterceptor, restoreFetch, h]
  · intro s i h
    simp [disableFetchBodyCapture, h]
  · intro s h
    simp [disableFetchBodyCapture, h]
  · intro s
    cases h : s.interceptorInstance with
    | none => simp [disableFetchBodyCapture, h]
    | some i => simp [disableFetchBodyCapture, h]
  · intro i s h
    cases s
    simp_all [restoreFetch]

/-- Witness for C6: concrete install-install-restore runs from the pristine
state keep the base transport as every saved original and end with it back
in the slot. -/
theorem installer_singleton_witness :
    (enableFetchBodyCapture optsDefault
        (enableFetchBodyCapture optsDefault stateBase).2).1.originalFetch = .base 0
    ∧ disableFetchBodyCapture stateBase = stateBase
    ∧ (disableFetchBodyCapture
        (enableFetchBodyCapture optsDefault stateBase).2).globalFetch = .base 0 := by
  have h := installer_singleton
  refine ⟨(h.2.1 optsDefault optsDefault stateBase rfl).1, h.2.2.2.1 stateBase rfl, ?_⟩
  have h3 := (h.2.2.1 (enableFetchBodyCapture optsDefault stateBase).2
    (enableFetchBodyCapture optsDefault stateBase).1 rfl).1
  exact h3.trans rfl

/-- Helper: the span-opening operations only set attributes. -/
theorem mem_startSpanOps {method url : String} {op : SpanOp}
    (h : op ∈ startSpanOps method url) : ∃ l, op = SpanOp.setAttrs l := by
  simp only [startSpanOps, List.mem_cons, List.not_mem_nil, or_false] at h
  exact ⟨_, h⟩

/-- Helper: request-header capture only sets attributes. -/
theorem mem_headerCapOps {o : InterceptorOptions} {i : Option ReqInit} {op : SpanOp}
    (h : op ∈ headerCapOps o i) : ∃ l, op = SpanOp.setAttrs l := by
  unfold headerCapOps at h
  by_cases hc : o.captureHeaders = true
  · rw [if_pos hc] at h
    cases hh : initHeaders i with
    | none => rw [hh] at h; simp at h
    | some hs =>
      rw [hh] at h
      simp only [List.mem_cons] at h
      rcases h with rfl | h
      · exact ⟨_, rfl⟩
      · by_cases he : (redactSensitiveHeaders (normalizeHeaders hs)).jwtClaims.isEmpty
        · simp [he] at h
        · simp only [he, if_false, Bool.false_eq_true, List.mem_cons, List.not_mem_nil,
            or_false] at h
          exact ⟨_, h⟩
  · rw [if_neg hc] at h; simp at h

/-- Helper: the status-attribute operations only set attributes. -/
theorem mem_respMetaOps {r : Resp} {op : SpanOp}
    (h : op ∈ respMetaOps r) : ∃ l, op = SpanOp.setAttrs l := by
  simp only [respMetaOps, List.mem_cons, List.not_mem_nil, or_false] at h
  exact ⟨_, h⟩

/-- Helper: response-header capture only sets attributes. -/
theorem mem_respHeaderOps {o : InterceptorOptions} {r : Resp} {op : SpanOp}
    (h : op ∈ respHeaderOps o r) : ∃ l, op = SpanOp.setAttrs l := by
  unfold respHeaderOps at h
  by_cases hc : o.captureHeaders = true
  · rw [if_pos hc] at h
    simp only [List.mem_cons] at h
    rcases h with rfl | h
    · exact ⟨_, rfl⟩
    · set rr := redactSensitiveHeaders
        (r.headers.foldl (fun acc p => recordSet acc (toLowerStr p.1) p.2) []) with hrr
      by_cases he : rr.jwtClaims.isEmpty
      · simp [he] at h
      · simp only [he, if_false, Bool.false_eq_true, List.mem_cons, List.not_mem_nil,
          or_false] at h
        exact ⟨_, h⟩
  · rw [if_neg hc] at h; simp at h

/-- Helper: an operation of the request-body capture exists only when the
capture is enabled, a truthy body operand is present and the decoded
outcome is truthy, and it is the single request.body attribute write. -/
theorem mem_bodyCapOps {o : InterceptorOptions} {i : Option ReqInit} {op : SpanOp}
    (h : op ∈ bodyCapOps o i) :
    o.captureRequestBody = true
    ∧ ∃ b, initBody i = some b ∧ bodyTruthy b = true
      ∧ outcomeTruthy (captureRequestBody b (initHeaders i) o.maxBodySize) = true
      ∧ op = SpanOp.setAttr "request.body"
          (renderOutcome (captureRequestBody b (initHeaders i) o.maxBodySize)) := by
  unfold bodyCapOps at h
  by_cases hc : o.captureRequestBody = true
  · rw [if_pos hc] at h
    cases hb : initBody i with
    | none => rw [hb] at h; simp at h
    | some b =>
      simp only [hb] at h
      by_cases hbt : bodyTruthy b = true
      · by_cases hot : outcomeTruthy (captureRequestBody b (initHeaders i) o.maxBodySize) = true
        · simp only [hbt, hot, if_true, List.mem_cons, List.not_mem_nil, or_false] at h
          exact ⟨hc, b, rfl, hbt, hot, h⟩
        · simp [hbt, hot] at h
      · simp [hbt] at h
  · rw [if_neg hc] at h; simp at h

/-- Helper: an operation of the response-body capture exists only when the
capture is enabled and the decoded outcome is truthy, and it is the single
response.body attribute write. -/
theorem mem_respBodyOps {o : InterceptorOptions} {r : Resp} {op : SpanOp}
    (h : op ∈ respBodyOps o r) :
    o.captureResponseBody = true
    ∧ outcomeTruthy (captureResponseBody o.maxBodySize r) = true
    ∧ op = SpanOp.setAttr "response.body"
        (renderOutcome (captureResponseBody o.maxBodySize r)) := by
  unfold respBodyOps at h
  by_cases hc : o.captureResponseBody = true
  · rw [if_pos hc] at h
    by_cases hot : outcomeTruthy (captureResponseBody o.maxBodySize r) = true
    · rw [if_pos hot] at h
      simp only [List.mem_cons, List.not_mem_nil, or_false] at h
      exact ⟨hc, hot, h⟩
    · rw [if_neg hot] at h; simp at h
  · rw [if_neg hc] at h; simp at h

/-- Helper: no phase before finalization ends the span or sets a status. -/
theorem endSpan_not_mem_phases (o : InterceptorOptions) (method url : String)
    (i : Option ReqInit) (r : Resp) :
    SpanOp.endSpan ∉ startSpanOps method url
    ∧ SpanOp.endSpan ∉ requestPhaseOps o i
    ∧ SpanOp.endSpan ∉ responsePhaseOps o r := by
  refine ⟨?_, ?_, ?_⟩
  · intro hm
    rcases mem_startSpanOps hm with ⟨l, hl⟩
    exact SpanOp.noConfusion hl
  · intro hm
    rcases List.mem_append.mp hm with hm | hm
    · rcases mem_headerCapOps hm with ⟨l, hl⟩
      exact SpanOp.noConfusion hl
    · rcases (mem_bodyCapOps hm).2 with ⟨b, _, _, _, hop⟩
      exact SpanOp.noConfusion hop
  · intro hm
    rcases List.mem_append.mp hm with hm | hm
    · rcases List.mem_append.mp hm with hm | hm
      · rcases mem_respMetaOps hm with ⟨l, hl⟩
        exact SpanOp.noConfusion hl
      · rcases mem_respHeaderOps hm with ⟨l, hl⟩
        exact SpanOp.noConfusion hl
    · exact SpanOp.noConfusion (mem_respBodyOps hm).2.2

/-- C5: when the transport raises, the orchestrator sets status ERROR with
that exception's message, ends the span exactly once, and re-raises the
same exception; when it returns, the orchestrator sets status OK, ends the
span exactly once, and returns the original response. -/
theorem interceptCall_finalizes (o : InterceptorOptions) (method url : String)
    (i : Option ReqInit) (tr : Except String Resp) :
    (∀ e, tr = .error e →
      (interceptCall o method url i tr).2 = .error e
      ∧ SpanOp.setStatusError e ∈ (interceptCall o method url i tr).1
      ∧ ((interceptCall o method url i tr).1).count SpanOp.endSpan = 1)
    ∧ (∀ r, tr = .ok r →
      (interceptCall o method url i tr).2 = .ok r
      ∧ SpanOp.setStatusOk ∈ (interceptCall o method url i tr).1
      ∧ ((interceptCall o method url i tr).1).count SpanOp.endSpan = 1) := by
  constructor
  · rintro e rfl
    obtain ⟨h1, h2, -⟩ := endSpan_not_mem_phases o method url i
      ⟨0, "", [], Except.error ""⟩
    refine ⟨rfl, by simp [interceptCall], ?_⟩
    simp [interceptCall, List.count_append, List.count_eq_zero.mpr h1,
      List.count_eq_zero.mpr h2, List.count_cons]
  · rintro r rfl
    obtain ⟨h1, h2, h3⟩ := endSpan_not_mem_phases o method url i r
    refine ⟨rfl, by simp [interceptCall], ?_⟩
    simp [interceptCall, List.count_append, List.count_eq_zero.mpr h1,
      List.count_eq_zero.mpr h2, List.count_eq_zero.mpr h3, List.count_cons]

/-- Witness for C5: one failing and one succeeding concrete call, each
finalized exactly once with the matching status and result. -/
theorem interceptCall_finalizes_witness :
    ((interceptCall optsDefault "GET" "u" initTruthy (.error "boom")).2 = .error "boom"
      ∧ SpanOp.setStatusError "boom"
          ∈ (interceptCall optsDefault "GET" "u" initTruthy (.error "boom")).1
      ∧ ((interceptCall optsDefault "GET" "u" initTruthy (.error "boom")).1).count
          SpanOp.endSpan = 1)
    ∧ ((interceptCall optsDefault "GET" "u" initTruthy (.ok respJsonOk)).2 = .ok respJsonOk
      ∧ SpanOp.setStatusOk
          ∈ (interceptCall optsDefault "GET" "u" initTruthy (.ok respJsonOk)).1
      ∧ ((interceptCall optsDefault "GET" "u" initTruthy (.ok respJsonOk)).1).count
          SpanOp.endSpan = 1) :=
  ⟨(interceptCall_finalizes optsDefault "GET" "u" initTruthy (.error "boom")).1 "boom" rfl,
   (interceptCall_finalizes optsDefault "GET" "u" initTruthy (.ok respJsonOk)).2 respJsonOk rfl⟩

/-- C10: a request.body attribute is written only when request-body capture
is enabled, a body operand is present and truthy (an empty-string body
fails that check before capture is attempted), and the decoded capture
outcome is itself truthy; likewise a response.body attribute is written
only when response-body capture is enabled, the transport returned, and
the decoded response outcome is truthy. -/
theorem bodyAttr_only_when_truthy (o : InterceptorOptions) (method url : String)
    (i : Option ReqInit) (tr : Except String Resp) (v w : String) :
    (SpanOp.setAttr "request.body" v ∈ (interceptCall o method url i tr).1 →
      o.captureRequestBody = true
      ∧ ∃ b, initBody i = some b ∧ bodyTruthy b = true
        ∧ outcomeTruthy (captureRequestBody b (initHeaders i) o.maxBodySize) = true)
    ∧ (SpanOp.setAttr "response.body" w ∈ (interceptCall o method url i tr).1 →
      o.captureResponseBody = true
      ∧ ∃ r, tr = .ok r ∧ outcomeTruthy (captureResponseBody o.maxBodySize r) = true) := by
  constructor
  · intro hm
    have hreq : SpanOp.setAttr "request.body" v ∈ requestPhaseOps o i := by
      cases tr with
      | error e =>
        simp only [interceptCall, List.append_assoc, List.mem_append] at hm
        rcases hm with hm | hm | hm
        · rcases mem_startSpanOps hm with ⟨l, hl⟩; exact absurd hl (by simp)
        · exact hm
        · simp at hm
      | ok r =>
        simp only [interceptCall, List.append_assoc, List.mem_append] at hm
        rcases hm with hm | hm | hm | hm
        · rcases mem_startSpanOps hm with ⟨l, hl⟩; exact absurd hl (by simp)
        · exact hm
        · rcases List.mem_append.mp hm with hm | hm
          · rcases List.mem_append.mp hm with hm | hm
            · rcases mem_respMetaOps hm with ⟨l, hl⟩; exact absurd hl (by simp)
            · rcases mem_respHeaderOps hm with ⟨l, hl⟩; exact absurd hl (by simp)
          · have hop := (mem_respBodyOps hm).2.2
            injection hop with hk hv
            exact absurd hk (by decide)
        · simp at hm
    rcases List.mem_append.mp hreq with hm2 | hm2
    · rcases mem_headerCapOps hm2 with ⟨l, hl⟩; exact absurd hl (by simp)
    · obtain ⟨hc, b, hb, hbt, hot, -⟩ := mem_bodyCapOps hm2
      exact ⟨hc, b, hb, hbt, hot⟩
  · intro hm
    cases tr with
    | error e =>
      exfalso
      simp only [interceptCall, List.append_assoc, List.mem_append] at hm
      rcases hm with hm | hm | hm
      · rcases mem_startSpanOps hm with ⟨l, hl⟩; exact absurd hl (by simp)
      · rcases List.mem_append.mp hm with hm | hm
        · rcases mem_headerCapOps hm with ⟨l, hl⟩; exact absurd hl (by simp)
        · have hop := (mem_bodyCapOps hm).2
          rcases hop with ⟨b, _, _, _, hop⟩
          injection hop with hk hv
          exact absurd hk (by decide)
      · simp at hm
    | ok r =>
      simp only [interceptCall, List.append_assoc, List.mem_append] at hm
      rcases hm with hm | hm | hm | hm
      · rcases mem_startSpanOps hm with ⟨l, hl⟩; exact absurd hl (by simp)
      · rcases List.mem_append.mp hm with hm | hm
        · rcases mem_headerCapOps hm with ⟨l, hl⟩; exact absurd hl (by simp)
        · have hop := (mem_bodyCapOps hm).2
          rcases hop with ⟨b, _, _, _, hop⟩
          injection hop with hk hv
          exact absurd hk (by decide)
      · rcases List.mem_append.mp hm with hm | hm
        · rcases List.mem_append.mp hm with hm | hm
          · rcases mem_respMetaOps hm with ⟨l, hl⟩; exact absurd hl (by simp)
          · rcases mem_respHeaderOps hm with ⟨l, hl⟩; exact absurd hl (by simp)
        · obtain ⟨hc, hot, -⟩ := mem_respBodyOps hm
          exact ⟨hc, r, rfl, hot⟩
      · simp at hm

/-- Witness for C10: a concrete call that writes both body attributes has a
present truthy body operand and truthy decoded outcomes on both sides. -/
theorem bodyAttr_only_when_truthy_witness :
    (optsDefault.captureRequestBody = true
      ∧ ∃ b, initBody initTruthy = some b ∧ bodyTruthy b = true
        ∧ outcomeTruthy
            (captureRequestBody b (initHeaders initTruthy) optsDefault.maxBodySize) = true)
    ∧ (optsDefault.captureResponseBody = true
      ∧ ∃ r, (Except.ok respJsonOk : Except String Resp) = .ok r
        ∧ outcomeTruthy (captureResponseBody optsDefault.maxBodySize r) = true) := by
  have h := bodyAttr_only_when_truthy optsDefault "GET" "u" initTruthy (.ok respJsonOk)
    "hello" "\x7b\"a\":1\x7d"
  exact ⟨h.1 (by decide), h.2 (by decide)⟩

end FetchCapture
